import Mathlib

/-!
Shallow embedding of `openclaw.py`: an LLM-driven browser agent consisting of a
`BrowserController` (Playwright operations over a live page) and a `BrowserAgent`
(a bounded tool-calling loop against an LLM).

Conventions of the embedding:
* Pure computations of the source (filename normalization, the wait clamp, the
  snapshot element enumeration, index resolution) are translated directly into
  Lean functions over `String`, `Int`, `Nat` and `ℚ`.
* The browser engine and the LLM service are out-of-scope collaborators; they
  appear as explicit oracles (function-valued inputs).  A Python exception raised
  by an engine/LLM call is modelled as `Except.error msg`; a normal return as
  `Except.ok`.
* Geometry values (`getBoundingClientRect`, `bounding_box`, `window.innerHeight`)
  are rationals: the JavaScript comparisons used by the source are exact
  (`=== 0`, `> 0`, `> innerHeight * 2`) so no floating-point rounding is involved
  in any modelled branch.
* Python's `str.endswith` / `str.startswith` are modelled as suffix/prefix tests
  on the character lists of the strings.
-/

namespace OpenClaw

/-! Section: Configuration constants (module level in the source) -/

def MAX_STEPS : Nat := 50

def OUTPUT_DIR : String := "./browser_output"

/-! Section: Python string primitives -/

/-- Python `s.endswith(suf)`: `suf` is a suffix of `s`. -/
def strEndsWith (s suf : String) : Bool := decide (suf.data <:+ s.data)

/-- Python `s.startswith(pre)`: `pre` is a prefix of `s`. -/
def strStartsWith (s pre : String) : Bool := decide (pre.data <+: s.data)

/-- POSIX `os.path.join(a, b)` for the two-argument case used by the source:
if `b` is absolute it replaces `a` entirely; otherwise a `/` separator is
inserted unless `a` is empty or already ends with `/`. -/
def osPathJoin (a b : String) : String :=
  if strStartsWith b "/" then b
  else if a = "" ∨ strEndsWith a "/" then a ++ b
  else a ++ "/" ++ b

/-! Section: `BrowserController.save_pdf` (filename logic)

```python
if not filename.endswith(".pdf"):
    filename += ".pdf"
filepath = os.path.join(OUTPUT_DIR, filename)
await self.page.pdf(path=filepath)
return f"Saved PDF to {filepath}"
```
-/

def savePdfFilename (filename : String) : String :=
  if strEndsWith filename ".pdf" then filename else filename ++ ".pdf"

/-- The path `save_pdf` writes to and returns (inside its result string). -/
def savePdfPath (filename : String) : String :=
  osPathJoin OUTPUT_DIR (savePdfFilename filename)

def savePdfResult (filename : String) : String :=
  "Saved PDF to " ++ savePdfPath filename

/-! Section: `browser_wait` clamp (`BrowserAgent.execute_tool`)

```python
seconds = min(max(args.get("seconds", 1), 1), 10)
```
-/

/-- The effective duration slept by `browser_wait`; `none` models a missing
`"seconds"` argument (Python `args.get("seconds", 1)`). -/
def clampWaitSeconds (requested : Option ℚ) : ℚ :=
  min (max (requested.getD 1) 1) 10

/-! Section: DOM model

A live element as seen through the two query paths of the source: the snapshot's
in-page JavaScript (`getBoundingClientRect`, which reports an all-zero rectangle
for unrendered elements) and Playwright's `bounding_box()` (which reports `None`
for them).  Both views are derived from the single field `box`.
-/

structure Rect where
  width : ℚ
  height : ℚ
  top : ℚ
deriving DecidableEq

structure DOMElement where
  tagName : String
  /-- Field `el.type`; `""` models a falsy (absent) value. -/
  type : String
  innerText : String
  value : String
  placeholder : String
  ariaLabel : String
  /-- Field `el.href`; `""` models a falsy (absent) value. -/
  href : String
  /-- Playwright field: `bounding_box()`; `none` for an unrendered element. -/
  box : Option Rect
deriving DecidableEq

/-- JavaScript `getBoundingClientRect()`: an unrendered element reports a zero rectangle. -/
def rectOf (el : DOMElement) : Rect := el.box.getD ⟨0, 0, 0⟩

/-- The record pushed per element by the snapshot's in-page script. -/
structure ElementRecord where
  index : Nat
  tag : String
  type : Option String
  text : String
  href : Option String
deriving DecidableEq

/-- JavaScript `a || b || ... || ''` over string values (falsy = empty). -/
def firstTruthy : List String → String
  | [] => ""
  | s :: rest => if s = "" then firstTruthy rest else s

/-- One pushed record: `{index: idx, tag: ..., type: ..., text: ..., href: ...}`. -/
def recordOf (idx : Nat) (el : DOMElement) : ElementRecord :=
  { index := idx
  , tag := el.tagName.toLower
  , type := if el.type = "" then none else some el.type
  , text := (firstTruthy [el.innerText, el.value, el.placeholder, el.ariaLabel]).take 80
  , href := if el.href = "" then none else some el.href }

/-- The snapshot script's two early `return`s, negated:
`rect.width === 0 || rect.height === 0` and `rect.top > window.innerHeight * 2`. -/
def snapIncluded (viewportHeight : ℚ) (el : DOMElement) : Bool :=
  decide (¬((rectOf el).width = 0 ∨ (rectOf el).height = 0) ∧
          ¬((rectOf el).top > viewportHeight * 2))

/-- The `document.querySelectorAll(selectors).forEach` loop: each kept element is
pushed with `index: elements.length`, i.e. the running count of kept elements. -/
def snapshotLoop (viewportHeight : ℚ) :
    List DOMElement → List ElementRecord → List ElementRecord
  | [], acc => acc
  | el :: rest, acc =>
    if snapIncluded viewportHeight el then
      snapshotLoop viewportHeight rest (acc ++ [recordOf acc.length el])
    else
      snapshotLoop viewportHeight rest acc

/-- The element list computed by `BrowserController.snapshot` (and cached in
`self.elements`). -/
def snapshotElements (viewportHeight : ℚ) (dom : List DOMElement) : List ElementRecord :=
  snapshotLoop viewportHeight dom []

/-- One line of the snapshot report: `[{index}] <{tag}> {text[:50]}`. -/
def formatElementLine (e : ElementRecord) : String :=
  "[" ++ toString e.index ++ "] <" ++ e.tag ++ "> " ++ e.text.take 50

/-- The formatted snapshot report (first 50 records, body text truncated). -/
def snapshotReport (url title : String) (els : List ElementRecord) (bodyText : String) :
    String :=
  "URL: " ++ url ++ "\nTitle: " ++ title ++ "\n\nInteractive elements:\n" ++
    String.intercalate "\n" ((els.take 50).map formatElementLine) ++
    "\n\nPage text (truncated):\n" ++ (bodyText.take 3000).take 1500

/-! Section: Action-time index resolution (`BrowserController.click` / `type_text`)

Both methods re-query the live DOM with the same interactive selector and scan
for the `index`-th element whose Playwright bounding box is present with strictly
positive width and height:

```python
visible_idx = 0
for el in elements:
    box = await el.bounding_box()
    if box and box['width'] > 0 and box['height'] > 0:
        if visible_idx == index:
            ...  # act on el
        visible_idx += 1
```
-/

def visibleBox (el : DOMElement) : Bool :=
  match el.box with
  | some b => decide (b.width > 0 ∧ b.height > 0)
  | none => false

def resolveLoop (index : Int) : List DOMElement → Int → Option DOMElement
  | [], _ => none
  | el :: rest, visIdx =>
    if visibleBox el then
      if visIdx = index then some el else resolveLoop index rest (visIdx + 1)
    else
      resolveLoop index rest visIdx

/-- The element the scan acts on; `none` models falling through to the
`Error: Could not find element` return. -/
def resolveIndex (live : List DOMElement) (index : Int) : Option DOMElement :=
  resolveLoop index live 0

/-! Section: `BrowserController.click`

```python
async def click(self, index: int) -> str:
    if index < 0 or index >= len(self.elements):
        return f"Error: Invalid element index {index}"
    elem = self.elements[index]
    try:
        elements = await self.page.query_selector_all(...)
        visible_idx = 0
        for el in elements:
            box = await el.bounding_box()
            if box and box['width'] > 0 and box['height'] > 0:
                if visible_idx == index:
                    try:
                        async with self.page.context.expect_page(timeout=3000) as new_page_info:
                            await el.click()
                        new_page = await new_page_info.value
                        self.page = new_page
                        await self.page.wait_for_load_state("networkidle")
                        return f"Clicked element [{index}]: {elem['text'][:30]} (opened new tab)"
                    except:
                        await el.click()
                        await self.page.wait_for_load_state("networkidle")
                        return f"Clicked element [{index}]: {elem['text'][:30]}"
                visible_idx += 1
        return f"Error: Could not find element {index}"
    except Exception as e:
        return f"Error clicking: {str(e)}"
```

The engine's contribution is the live element list, the behaviour of the first
`el.click()` issued inside `expect_page` (does a new page appear within the
bounded window? does the click itself raise?) and the behaviour of the retry
`el.click()` in the bare `except:` branch.  Load-settle waits are assumed to
return normally (their failures are indistinguishable, for the modelled outputs,
from a click failure caught by the same handlers).
-/

/-- Behaviour of the first `el.click()` raced against `expect_page(timeout=3000)`. -/
inductive FirstClick where
  /-- The click succeeds and a new page with this id is observed in the window. -/
  | newTab (pid : Nat)
  /-- The click succeeds; no new page appears, so leaving the `async with` block
  raises `TimeoutError`. -/
  | timeout
  /-- Call `el.click()` itself raises with this message. -/
  | raises (msg : String)
deriving DecidableEq

structure ClickEngine where
  /-- Result of `query_selector_all`, in document order. -/
  live : List DOMElement
  firstClick : FirstClick
  /-- Behaviour of the retry `el.click()` in the `except:` branch:
  `none` = succeeds, `some msg` = raises. -/
  secondClick : Option String
deriving DecidableEq

/-- Observable outcome of one `click` call (ghost fields `target`, `clicks`,
`settled` instrument which element was acted on, how many successful clicks were
performed on it, and where the load-settle wait ran; they mirror side effects of
the source, not extra control flow). -/
structure ClickOutput where
  result : String
  target : Option DOMElement
  clicks : Nat
  activePage : Nat
  settled : Option Nat
deriving DecidableEq

def click (cache : List ElementRecord) (eng : ClickEngine) (currentPage : Nat)
    (index : Int) : ClickOutput :=
  if index < 0 ∨ (cache.length : Int) ≤ index then
    ⟨"Error: Invalid element index " ++ toString index, none, 0, currentPage, none⟩
  else
    let elem := cache.getD index.toNat ⟨0, "", none, "", none⟩
    match resolveIndex eng.live index with
    | none =>
      ⟨"Error: Could not find element " ++ toString index, none, 0, currentPage, none⟩
    | some el =>
      match eng.firstClick with
      | FirstClick.newTab p =>
        ⟨"Clicked element [" ++ toString index ++ "]: " ++ elem.text.take 30 ++
            " (opened new tab)", some el, 1, p, some p⟩
      | FirstClick.timeout =>
        match eng.secondClick with
        | none =>
          ⟨"Clicked element [" ++ toString index ++ "]: " ++ elem.text.take 30,
            some el, 2, currentPage, some currentPage⟩
        | some m =>
          ⟨"Error clicking: " ++ m, some el, 1, currentPage, none⟩
      | FirstClick.raises _ =>
        match eng.secondClick with
        | none =>
          ⟨"Clicked element [" ++ toString index ++ "]: " ++ elem.text.take 30,
            some el, 1, currentPage, some currentPage⟩
        | some m =>
          ⟨"Error clicking: " ++ m, some el, 0, currentPage, none⟩

/-! Section: `BrowserController.type_text`

Same guard and resolution scan as `click`; then `el.fill(text)`, optionally
`el.press("Enter")` plus a load-settle wait, with the whole body wrapped in
`try ... except Exception as e: return f"Error typing: {str(e)}"`.
-/

structure TypeEngine where
  live : List DOMElement
  /-- Behaviour of `el.fill(text)`: `none` = succeeds, `some msg` = raises. -/
  fill : Option String
  /-- Behaviour of `el.press("Enter")`: `none` = succeeds, `some msg` = raises. -/
  press : Option String
deriving DecidableEq

structure TypeOutput where
  result : String
  target : Option DOMElement
  /-- The text the target's value was set to, when `fill` succeeded. -/
  filledWith : Option String
deriving DecidableEq

def type_text (cache : List ElementRecord) (eng : TypeEngine) (index : Int)
    (text : String) (submit : Bool) : TypeOutput :=
  if index < 0 ∨ (cache.length : Int) ≤ index then
    ⟨"Error: Invalid element index " ++ toString index, none, none⟩
  else
    match resolveIndex eng.live index with
    | none => ⟨"Error: Could not find element " ++ toString index, none, none⟩
    | some el =>
      match eng.fill with
      | some m => ⟨"Error typing: " ++ m, some el, none⟩
      | none =>
        if submit then
          match eng.press with
          | some m => ⟨"Error typing: " ++ m, some el, some text⟩
          | none =>
            ⟨"Typed '" ++ text ++ "' into element [" ++ toString index ++ "]",
              some el, some text⟩
        else
          ⟨"Typed '" ++ text ++ "' into element [" ++ toString index ++ "]",
            some el, some text⟩

/-! Section: `BrowserController.navigate`

```python
async def navigate(self, url: str) -> str:
    await self.page.goto(url, wait_until="networkidle")
    return f"Navigated to {url}"
```

There is no `try`/`except` here: a raising `goto` propagates to the caller. -/

def navigate (goto : String → Except String Unit) (url : String) :
    Except String String :=
  (goto url).map (fun _ => "Navigated to " ++ url)

/-! Section: Tool calls and the agent loop (`BrowserAgent`)

The LLM service and the browser engine are oracles:
* `Oracle.resp n` is what `generate_content` does on the `n`-th step
  (raise, return no candidates, or return a model turn);
* `Oracle.act n i c` is the behaviour, on step `n`, of the browser-delegating
  branch of `execute_tool` for the `i`-th tool call `c` of the batch
  (`browser_navigate` / `browser_snapshot` / `browser_click` / `browser_type` /
  `browser_pdf` / `browser_back` / `browser_wait` / unknown names):
  `Except.ok s` = the branch returns string `s`, `Except.error e` = the call
  raises (e.g. `navigate` propagating a `goto` timeout, or a `KeyError` on a
  missing required argument).  The two terminal declarations never touch the
  browser and are translated directly.
-/

structure ToolCall where
  name : String
  /-- Arguments `fc.args` as a string-keyed mapping (only string-valued arguments are
  inspected by the terminal branches). -/
  args : List (String × String)
deriving DecidableEq

def isTerminalCall (c : ToolCall) : Bool :=
  c.name = "task_complete" || c.name = "task_failed"

/-- The terminal-relevant agent flags (`self.done`, `self.failed`, `self.result`). -/
structure Flags where
  done : Bool
  failed : Bool
  result : String
deriving DecidableEq

/-- Method `BrowserAgent.execute_tool`: the two terminal declarations set a flag and
return an acknowledgment string; every other name is delegated to the
engine-dependent branch `act`. -/
def executeTool (act : ToolCall → Except String String) (fl : Flags) (c : ToolCall) :
    Except String (Flags × String) :=
  if c.name = "task_complete" then
    let r := ((c.args.lookup "summary").getD "Done")
    Except.ok ({ fl with done := true, result := r }, "Task complete: " ++ r)
  else if c.name = "task_failed" then
    let r := ((c.args.lookup "reason").getD "Failed")
    Except.ok ({ fl with failed := true, result := r }, "Task failed: " ++ r)
  else
    (act c).map (fun s => (fl, s))

/-- Result of dispatching one batch of tool calls (the `for fc in
response.function_calls` loop).  `responses` are the collected
`(name, result-string)` pairs; `dispatched` is a ghost count of `execute_tool`
invocations; `exc = some e` means an exception escaped the loop body (aborting
the batch, its collected responses never being appended by the caller). -/
structure BatchResult where
  flags : Flags
  responses : List (String × String)
  dispatched : Nat
  exc : Option String
deriving DecidableEq

def runBatchGo (act : Nat → ToolCall → Except String String) :
    Flags → List ToolCall → Nat → List (String × String) → BatchResult
  | fl, [], i, acc => ⟨fl, acc, i, none⟩
  | fl, c :: rest, i, acc =>
    match executeTool (act i) fl c with
    | Except.error e => ⟨fl, acc, i + 1, some e⟩
    | Except.ok (fl2, r) =>
      let acc2 := acc ++ [(c.name, r)]
      if fl2.done || fl2.failed then ⟨fl2, acc2, i + 1, none⟩
      else runBatchGo act fl2 rest (i + 1) acc2

def runBatch (act : Nat → ToolCall → Except String String) (fl : Flags)
    (calls : List ToolCall) : BatchResult :=
  runBatchGo act fl calls 0 []

/-- A model turn: `response.candidates[0].content`, echoed verbatim into the
history, together with the tool calls it carries (`response.function_calls`). -/
structure ModelTurn where
  text : String
  calls : List ToolCall
deriving DecidableEq

/-- Outcome of one `generate_content` call. -/
inductive LLMEvent where
  /-- The call raises (network error etc.). -/
  | raise (msg : String)
  /-- Response has no candidates (`response.candidates` is empty). -/
  | empty
  /-- A candidate with content `t`. -/
  | turn (t : ModelTurn)
deriving DecidableEq

/-- One entry of `self.history` (a `types.Content`). -/
inductive Turn where
  /-- A user-role text turn (system prompt, nudge, or synthetic error report). -/
  | userText (s : String)
  /-- The model's own turn echoed back. -/
  | model (t : ModelTurn)
  /-- A user-role turn of function responses, each wrapping `{result: string}`. -/
  | toolResponses (rs : List (String × String))
deriving DecidableEq

structure Oracle where
  resp : Nat → LLMEvent
  act : Nat → Nat → ToolCall → Except String String

/-- Mutable `BrowserAgent` state relevant to the loop.  `stopped` models having
executed the `break` on an empty candidate list. -/
structure AgentState where
  history : List Turn
  step : Nat
  done : Bool
  failed : Bool
  result : String
  stopped : Bool
deriving DecidableEq

def systemPrompt (task : String) : String :=
  "You are a browser automation agent. Your task:\n\n" ++ task ++
  "\n\nGuidelines:\n1. Call browser_navigate first to go to a website\n" ++
  "2. Call browser_snapshot to see the page and get element indices\n" ++
  "3. Use the index numbers to click or type into elements\n" ++
  "4. After actions, call browser_snapshot to see the result\n" ++
  "5. Save PDFs with descriptive names like \"result_1.pdf\"\n" ++
  "6. Call task_complete when done, task_failed if stuck\n\nOutput directory: " ++
  OUTPUT_DIR ++ "\nBegin now."

def initState (task : String) : AgentState :=
  { history := [Turn.userText (systemPrompt task)]
  , step := 0, done := false, failed := false, result := "", stopped := false }

def errorTurnText (e : String) : String :=
  "Error: " ++ e ++ ". Try a different approach."

/-- The body of one `while` iteration, except for the `self.step += 1` increment
(split off so that `runStep` exposes the increment definitionally); `n` is the
value of `self.step` during this iteration. -/
def runStepCore (or' : Oracle) (n : Nat) (s : AgentState) : AgentState :=
  match or'.resp n with
  | LLMEvent.raise e =>
    { s with history := s.history ++ [Turn.userText (errorTurnText e)] }
  | LLMEvent.empty => { s with stopped := true }
  | LLMEvent.turn t =>
    if t.calls.isEmpty then
      { s with history :=
          s.history ++ [Turn.model t, Turn.userText "Continue with a tool call."] }
    else
      let b := runBatch (or'.act n) ⟨s.done, s.failed, s.result⟩ t.calls
      match b.exc with
      | none =>
        { s with done := b.flags.done, failed := b.flags.failed
               , result := b.flags.result
               , history := s.history ++ [Turn.model t] ++
                   (if b.responses.isEmpty then [] else [Turn.toolResponses b.responses]) }
      | some e =>
        { s with done := b.flags.done, failed := b.flags.failed
               , result := b.flags.result
               , history := s.history ++
                   [Turn.model t, Turn.userText (errorTurnText e)] }

/-- One full iteration of the `while` loop (one step = one LLM request). -/
def runStep (or' : Oracle) (s : AgentState) : AgentState :=
  { runStepCore or' (s.step + 1) s with step := s.step + 1 }

/-- The `while self.step < MAX_STEPS and not self.done and not self.failed`
loop, with `stopped` capturing the `break` on an empty candidate list.  The
recursion is driven by the fuel `maxSteps - s.step`, which `runLoop` supplies;
since every iteration increments `step` by exactly one and the guard requires
`step < maxSteps`, this fuel never runs out before the guard fails
(`runLoopAux_fuel` below makes this irrelevance precise). -/
def runLoopAux (or' : Oracle) (maxSteps : Nat) : Nat → AgentState → AgentState
  | 0, s => s
  | fuel + 1, s =>
    if s.step < maxSteps ∧ s.done = false ∧ s.failed = false ∧ s.stopped = false then
      runLoopAux or' maxSteps fuel (runStep or' s)
    else s

def runLoop (or' : Oracle) (maxSteps : Nat) (s : AgentState) : AgentState :=
  runLoopAux or' maxSteps (maxSteps - s.step) s

/-- The whole `BrowserAgent.run` loop from the initial history. -/
def runAgent (or' : Oracle) (task : String) : AgentState :=
  runLoop or' MAX_STEPS (initState task)

/-- The trailing report's classification: `COMPLETED` if `self.done`, else
`FAILED` if `self.failed`, else `MAX STEPS REACHED`. -/
inductive Outcome where
  | completed
  | failed
  | exhausted
deriving DecidableEq

def outcomeOf (s : AgentState) : Outcome :=
  if s.done then Outcome.completed
  else if s.failed then Outcome.failed
  else Outcome.exhausted

/-- Total number of tool-response entries (function-response parts) in a history. -/
def toolResponseCount (h : List Turn) : Nat :=
  (h.map (fun t =>
    match t with
    | Turn.toolResponses rs => rs.length
    | _ => 0)).sum

/-! Section: basic lemmas about index resolution and the snapshot enumeration -/

theorem resolveLoop_eq (i : Int) (live : List DOMElement) :
    ∀ v : Int, 0 ≤ v →
      resolveLoop i live v =
        if v ≤ i then (live.filter visibleBox)[(i - v).toNat]? else none := by
  induction live with
  | nil => intro v _; simp [resolveLoop]
  | cons el rest ih =>
    intro v hv
    by_cases hvis : visibleBox el
    · by_cases heq : v = i
      · subst heq
        simp only [resolveLoop, if_pos hvis, if_pos rfl, if_pos le_rfl]
        simp [List.filter_cons, hvis]
      · simp only [resolveLoop, if_pos hvis, if_neg heq]
        rw [ih (v + 1) (by omega)]
        by_cases hle : v ≤ i
        · have hlt : v < i := lt_of_le_of_ne hle heq
          rw [if_pos (by omega), if_pos hle]
          simp only [List.filter_cons, hvis, if_pos]
          have hnat : (i - v).toNat = (i - (v + 1)).toNat + 1 := by omega
          rw [hnat]
          simp
        · rw [if_neg (by omega), if_neg hle]
    · simp only [resolveLoop, if_neg hvis]
      rw [ih v hv]
      simp [List.filter_cons, hvis]

/-- Action-time resolution returns exactly the `index`-th element (0-based) of
the freshly queried, currently-visible element sequence. -/
theorem resolveIndex_eq (live : List DOMElement) (i : Int) :
    resolveIndex live i =
      if 0 ≤ i then (live.filter visibleBox)[i.toNat]? else none := by
  rw [resolveIndex, resolveLoop_eq i live 0 le_rfl]
  by_cases h : 0 ≤ i
  · rw [if_pos h, if_pos h, Int.sub_zero]
  · rw [if_neg (by omega), if_neg h]

theorem filter_eraseP {α : Type} (p : α → Bool) (l : List α) :
    (l.eraseP p).filter p = (l.filter p).tail := by
  induction l with
  | nil => rfl
  | cons a t ih =>
    by_cases h : p a <;> simp [List.eraseP_cons, h, List.filter_cons, ih]

theorem getElem?_tail {α : Type} (l : List α) (n : Nat) : l.tail[n]? = l[n + 1]? := by
  cases l <;> simp

theorem snapshotLoop_eq (vh : ℚ) (dom : List DOMElement) :
    ∀ acc : List ElementRecord,
      snapshotLoop vh dom acc =
        acc ++ (List.enumFrom acc.length (dom.filter (snapIncluded vh))).map
          (fun p => recordOf p.1 p.2) := by
  induction dom with
  | nil => intro acc; simp [snapshotLoop]
  | cons el rest ih =>
    intro acc
    by_cases h : snapIncluded vh el
    · simp only [snapshotLoop, if_pos h, List.filter_cons, h, if_pos]
      rw [ih]
      simp [List.enumFrom]
    · simp only [snapshotLoop, if_neg h, List.filter_cons, h]
      exact ih acc

/-- The snapshot's element list is the visible-and-near-viewport filter of the
document-ordered query, enumerated from 0. -/
theorem snapshotElements_eq (vh : ℚ) (dom : List DOMElement) :
    snapshotElements vh dom =
      ((dom.filter (snapIncluded vh)).enum).map (fun p => recordOf p.1 p.2) := by
  rw [snapshotElements, snapshotLoop_eq]
  simp [List.enum]

theorem snapshotElements_indices (vh : ℚ) (dom : List DOMElement) :
    (snapshotElements vh dom).map ElementRecord.index =
      List.range (snapshotElements vh dom).length := by
  rw [snapshotElements_eq, List.map_map]
  have hcomp : (ElementRecord.index ∘ fun p : Nat × DOMElement => recordOf p.1 p.2) =
      Prod.fst := rfl
  rw [hcomp, List.enum_map_fst]
  simp

/-! Section: lemmas about batch dispatch (`for fc in response.function_calls`) -/

theorem runBatchGo_done (act : Nat → ToolCall → Except String String)
    (calls : List ToolCall) :
    ∀ (fl : Flags) (i : Nat) (acc : List (String × String)), fl.done = true →
      (runBatchGo act fl calls i acc).flags.done = true := by
  induction calls with
  | nil => intro fl i acc h; simpa [runBatchGo] using h
  | cons c rest ih =>
    intro fl i acc h
    simp only [runBatchGo, executeTool]
    by_cases h1 : c.name = "task_complete"
    · simp [h1]
    · by_cases h2 : c.name = "task_failed"
      · simp [h1, h2, h]
      · simp only [h1, h2, if_false]
        cases hact : act i c with
        | error e => simp [hact, Except.map, h]
        | ok v => simp [hact, Except.map, h]

theorem runBatchGo_failed (act : Nat → ToolCall → Except String String)
    (calls : List ToolCall) :
    ∀ (fl : Flags) (i : Nat) (acc : List (String × String)), fl.failed = true →
      (runBatchGo act fl calls i acc).flags.failed = true := by
  induction calls with
  | nil => intro fl i acc h; simpa [runBatchGo] using h
  | cons c rest ih =>
    intro fl i acc h
    simp only [runBatchGo, executeTool]
    by_cases h1 : c.name = "task_complete"
    · simp [h1, h]
    · by_cases h2 : c.name = "task_failed"
      · simp [h1, h2, h]
      · simp only [h1, h2, if_false]
        cases hact : act i c with
        | error e => simp [hact, Except.map, h]
        | ok v => simp [hact, Except.map, h]

/-- A batch containing no terminal declaration leaves the flags untouched. -/
theorem runBatchGo_no_terminal (act : Nat → ToolCall → Except String String) :
    ∀ (calls : List ToolCall), (∀ c ∈ calls, isTerminalCall c = false) →
    ∀ (fl : Flags) (i : Nat) (acc : List (String × String)),
      (runBatchGo act fl calls i acc).flags = fl := by
  intro calls
  induction calls with
  | nil => intro _ fl i acc; rfl
  | cons c rest ih =>
    intro hterm fl i acc
    have hc : isTerminalCall c = false := hterm c (List.mem_cons_self c rest)
    have h1 : ¬(c.name = "task_complete") := by
      intro h; simp [isTerminalCall, h] at hc
    have h2 : ¬(c.name = "task_failed") := by
      intro h; simp [isTerminalCall, h] at hc
    simp only [runBatchGo, executeTool, h1, h2, if_false]
    cases hact : act i c with
    | error e => rfl
    | ok v =>
      simp only [Except.map]
      by_cases hbrk : fl.done || fl.failed
      · simp [hbrk]
      · simp only [hbrk, if_false]
        exact ih (fun c2 hc2 => hterm c2 (List.mem_cons_of_mem c hc2)) fl (i + 1) _

/-- If an exception escaped the batch, the flags are those from before the batch
(a raising call is never a terminal declaration, and a terminal declaration
stops the batch without raising). -/
theorem runBatchGo_exc_flags (act : Nat → ToolCall → Except String String) :
    ∀ (calls : List ToolCall) (fl : Flags) (i : Nat) (acc : List (String × String)) (e : String),
      (runBatchGo act fl calls i acc).exc = some e →
      (runBatchGo act fl calls i acc).flags = fl := by
  intro calls
  induction calls with
  | nil => intro fl i acc e h; cases h
  | cons c rest ih =>
    intro fl i acc e h
    revert h
    simp only [runBatchGo, executeTool]
    by_cases h1 : c.name = "task_complete"
    · simp [h1]
    · by_cases h2 : c.name = "task_failed"
      · simp [h1, h2]
      · simp only [h1, h2, if_false]
        cases hact : act i c with
        | error e2 => intro _; rfl
        | ok v =>
          simp only [Except.map]
          by_cases hbrk : fl.done || fl.failed
          · simp [hbrk]
          · simp only [hbrk, if_false]
            exact ih fl (i + 1) _ e

/-- Starting from a running state, a batch can set at most one of the two
terminal flags: the dispatch loop breaks right after the first one is set. -/
theorem runBatchGo_not_both (act : Nat → ToolCall → Except String String) :
    ∀ (calls : List ToolCall) (fl : Flags) (i : Nat) (acc : List (String × String)),
      fl.done = false → fl.failed = false →
      ¬((runBatchGo act fl calls i acc).flags.done = true ∧
        (runBatchGo act fl calls i acc).flags.failed = true) := by
  intro calls
  induction calls with
  | nil => intro fl i acc hd hf h; rw [runBatchGo] at h; rw [hd] at h; cases h.1
  | cons c rest ih =>
    intro fl i acc hd hf
    simp only [runBatchGo, executeTool]
    by_cases h1 : c.name = "task_complete"
    · simp [h1, hf]
    · by_cases h2 : c.name = "task_failed"
      · simp [h1, h2, hd]
      · simp only [h1, h2, if_false]
        cases hact : act i c with
        | error e => simp [Except.map, hd]
        | ok v =>
          simp only [Except.map, hd, hf, Bool.or_self, if_false]
          exact ih fl (i + 1) _ hd hf

theorem runBatchGo_cons (act : Nat → ToolCall → Except String String)
    (fl : Flags) (c : ToolCall) (rest : List ToolCall) (i : Nat)
    (acc : List (String × String)) :
    runBatchGo act fl (c :: rest) i acc =
      match executeTool (act i) fl c with
      | Except.error e => ⟨fl, acc, i + 1, some e⟩
      | Except.ok (fl2, r) =>
        if fl2.done || fl2.failed then ⟨fl2, acc ++ [(c.name, r)], i + 1, none⟩
        else runBatchGo act fl2 rest (i + 1) (acc ++ [(c.name, r)]) := rfl

/-- If no dispatched call raises and any terminal declaration occurs only as the
last call, every call of the batch contributes exactly one response, in batch
order, and no exception escapes. -/
theorem runBatchGo_complete (act : Nat → ToolCall → Except String String)
    (hok : ∀ i c, ∃ v, act i c = Except.ok v) :
    ∀ (calls : List ToolCall) (fl : Flags) (i : Nat) (acc : List (String × String)),
      fl.done = false → fl.failed = false →
      (∀ c ∈ calls.dropLast, isTerminalCall c = false) →
      (runBatchGo act fl calls i acc).exc = none ∧
      (runBatchGo act fl calls i acc).responses.map Prod.fst =
        acc.map Prod.fst ++ calls.map ToolCall.name := by
  intro calls
  induction calls with
  | nil => intro fl i acc hd hf _; simp [runBatchGo]
  | cons c rest ih =>
    intro fl i acc hd hf hterm
    cases rest with
    | nil =>
      by_cases h1 : c.name = "task_complete"
      · simp [runBatchGo, executeTool, h1]
      · by_cases h2 : c.name = "task_failed"
        · simp [runBatchGo, executeTool, h1, h2]
        · obtain ⟨v, hv⟩ := hok i c
          simp only [runBatchGo, executeTool, h1, h2, if_false, hv, Except.map]
          simp [hd, hf, runBatchGo]
    | cons c2 rest2 =>
      have hc : isTerminalCall c = false := by
        apply hterm
        rw [List.dropLast_cons₂]
        exact List.mem_cons_self c _
      have h1 : ¬(c.name = "task_complete") := by
        intro h; simp [isTerminalCall, h] at hc
      have h2 : ¬(c.name = "task_failed") := by
        intro h; simp [isTerminalCall, h] at hc
      obtain ⟨v, hv⟩ := hok i c
      rw [runBatchGo_cons]
      simp only [executeTool, h1, h2, if_false, hv, Except.map]
      rw [if_neg (by simp [hd, hf])]
      have ihres := ih fl (i + 1) (acc ++ [(c.name, v)]) hd hf
        (fun c3 hc3 => hterm c3 (by rw [List.dropLast_cons₂]; exact List.mem_cons_of_mem c hc3))
      refine ⟨ihres.1, ?_⟩
      rw [ihres.2]
      simp

/-- If the first terminal declaration of a batch sits at position `pre.length`,
dispatch stops right after it: `pre.length + 1` calls are dispatched, each with
one collected response, and the batch ends in a terminal flag state. -/
theorem runBatchGo_first_terminal (act : Nat → ToolCall → Except String String)
    (hok : ∀ i c, ∃ v, act i c = Except.ok v) :
    ∀ (pre : List ToolCall) (c : ToolCall) (post : List ToolCall)
      (fl : Flags) (i : Nat) (acc : List (String × String)),
      fl.done = false → fl.failed = false →
      (∀ c2 ∈ pre, isTerminalCall c2 = false) →
      isTerminalCall c = true →
      (runBatchGo act fl (pre ++ c :: post) i acc).dispatched = i + pre.length + 1 ∧
      (runBatchGo act fl (pre ++ c :: post) i acc).responses.length =
        acc.length + pre.length + 1 ∧
      (runBatchGo act fl (pre ++ c :: post) i acc).exc = none ∧
      ((runBatchGo act fl (pre ++ c :: post) i acc).flags.done = true ∨
       (runBatchGo act fl (pre ++ c :: post) i acc).flags.failed = true) := by
  intro pre
  induction pre with
  | nil =>
    intro c post fl i acc hd hf _ hc
    by_cases h1 : c.name = "task_complete"
    · simp [runBatchGo, executeTool, h1, List.length_append]
    · have h2 : c.name = "task_failed" := by
        simpa [isTerminalCall, h1] using hc
      simp [runBatchGo, executeTool, h1, h2, List.length_append]
  | cons p pre' ih =>
    intro c post fl i acc hd hf hpre hc
    have hp : isTerminalCall p = false := hpre p (List.mem_cons_self p pre')
    have h1 : ¬(p.name = "task_complete") := by
      intro h; simp [isTerminalCall, h] at hp
    have h2 : ¬(p.name = "task_failed") := by
      intro h; simp [isTerminalCall, h] at hp
    obtain ⟨v, hv⟩ := hok i p
    rw [List.cons_append, runBatchGo_cons]
    simp only [executeTool, h1, h2, if_false, hv, Except.map]
    rw [if_neg (by simp [hd, hf])]
    have ihres := ih c post fl (i + 1) (acc ++ [(p.name, v)]) hd hf
      (fun c2 h => hpre c2 (List.mem_cons_of_mem p h)) hc
    refine ⟨?_, ?_, ihres.2.2.1, ihres.2.2.2⟩
    · rw [ihres.1]; simp; omega
    · rw [ihres.2.1]; simp [List.length_append]; omega

/-! Section: lemmas about one loop iteration and the bounded loop -/

theorem runStep_step (or' : Oracle) (s : AgentState) :
    (runStep or' s).step = s.step + 1 := rfl

theorem runStepCore_done_mono (or' : Oracle) (n : Nat) (s : AgentState)
    (h : s.done = true) : (runStepCore or' n s).done = true := by
  simp only [runStepCore]
  cases hr : or'.resp n with
  | raise e => simpa using h
  | empty => simpa using h
  | turn t =>
    by_cases hc : t.calls.isEmpty
    · simpa [hc] using h
    · simp only [hc, if_false]
      have hb : (runBatch (or'.act n) ⟨s.done, s.failed, s.result⟩ t.calls).flags.done = true :=
        runBatchGo_done (or'.act n) t.calls ⟨s.done, s.failed, s.result⟩ 0 [] h
      cases hexc : (runBatch (or'.act n) ⟨s.done, s.failed, s.result⟩ t.calls).exc with
      | none => simpa [hexc] using hb
      | some e => simpa [hexc] using hb

theorem runStepCore_failed_mono (or' : Oracle) (n : Nat) (s : AgentState)
    (h : s.failed = true) : (runStepCore or' n s).failed = true := by
  simp only [runStepCore]
  cases hr : or'.resp n with
  | raise e => simpa using h
  | empty => simpa using h
  | turn t =>
    by_cases hc : t.calls.isEmpty
    · simpa [hc] using h
    · simp only [hc, if_false]
      have hb : (runBatch (or'.act n) ⟨s.done, s.failed, s.result⟩ t.calls).flags.failed = true :=
        runBatchGo_failed (or'.act n) t.calls ⟨s.done, s.failed, s.result⟩ 0 [] h
      cases hexc : (runBatch (or'.act n) ⟨s.done, s.failed, s.result⟩ t.calls).exc with
      | none => simpa [hexc] using hb
      | some e => simpa [hexc] using hb

theorem runStepCore_running (or' : Oracle) (n : Nat) (s : AgentState)
    (hresp : or'.resp n ≠ LLMEvent.empty)
    (hterm : ∀ t, or'.resp n = LLMEvent.turn t → ∀ c ∈ t.calls, isTerminalCall c = false)
    (hd : s.done = false) (hf : s.failed = false) (hs : s.stopped = false) :
    (runStepCore or' n s).done = false ∧ (runStepCore or' n s).failed = false ∧
      (runStepCore or' n s).stopped = false := by
  simp only [runStepCore]
  cases hr : or'.resp n with
  | raise e => simp [hd, hf, hs]
  | empty => exact absurd hr hresp
  | turn t =>
    by_cases hc : t.calls.isEmpty
    · simp [hc, hd, hf, hs]
    · simp only [hc, if_false]
      have hfl : (runBatch (or'.act n) ⟨s.done, s.failed, s.result⟩ t.calls).flags =
          ⟨s.done, s.failed, s.result⟩ :=
        runBatchGo_no_terminal (or'.act n) t.calls (hterm t hr)
          ⟨s.done, s.failed, s.result⟩ 0 []
      cases hexc : (runBatch (or'.act n) ⟨s.done, s.failed, s.result⟩ t.calls).exc with
      | none =>
        simp only [hexc]
        refine ⟨?_, ?_, hs⟩
        · show (runBatch (or'.act n) ⟨s.done, s.failed, s.result⟩ t.calls).flags.done = false
          rw [hfl]; exact hd
        · show (runBatch (or'.act n) ⟨s.done, s.failed, s.result⟩ t.calls).flags.failed = false
          rw [hfl]; exact hf
      | some e =>
        simp only [hexc]
        refine ⟨?_, ?_, hs⟩
        · show (runBatch (or'.act n) ⟨s.done, s.failed, s.result⟩ t.calls).flags.done = false
          rw [hfl]; exact hd
        · show (runBatch (or'.act n) ⟨s.done, s.failed, s.result⟩ t.calls).flags.failed = false
          rw [hfl]; exact hf

theorem runStep_running (or' : Oracle) (s : AgentState)
    (hresp : or'.resp (s.step + 1) ≠ LLMEvent.empty)
    (hterm : ∀ t, or'.resp (s.step + 1) = LLMEvent.turn t →
      ∀ c ∈ t.calls, isTerminalCall c = false)
    (hd : s.done = false) (hf : s.failed = false) (hs : s.stopped = false) :
    (runStep or' s).done = false ∧ (runStep or' s).failed = false ∧
      (runStep or' s).stopped = false := by
  have h := runStepCore_running or' (s.step + 1) s hresp hterm hd hf hs
  exact ⟨h.1, h.2.1, h.2.2⟩

theorem runLoopAux_le (or' : Oracle) (m : Nat) :
    ∀ (fuel : Nat) (s : AgentState), s.step ≤ m →
      (runLoopAux or' m fuel s).step ≤ m := by
  intro fuel
  induction fuel with
  | zero => intro s h; exact h
  | succ f ih =>
    intro s h
    by_cases hcond : s.step < m ∧ s.done = false ∧ s.failed = false ∧ s.stopped = false
    · rw [runLoopAux, if_pos hcond]
      exact ih (runStep or' s) (by rw [runStep_step]; exact hcond.1)
    · rw [runLoopAux, if_neg hcond]
      exact h

/-- The loop never runs more than `maxSteps` steps. -/
theorem runLoop_le (or' : Oracle) (m : Nat) (s : AgentState) (h : s.step ≤ m) :
    (runLoop or' m s).step ≤ m :=
  runLoopAux_le or' m (m - s.step) s h

/-- Once a terminal flag is set, the loop guard fails immediately: the state is
returned unchanged (no step increment, hence no further LLM request). -/
theorem runLoop_terminal_fix (or' : Oracle) (m : Nat) (s : AgentState)
    (h : s.done = true ∨ s.failed = true) : runLoop or' m s = s := by
  rw [runLoop]
  cases hf : m - s.step with
  | zero => rfl
  | succ f =>
    rw [runLoopAux, if_neg]
    rintro ⟨-, hd, hfl, -⟩
    rcases h with h | h
    · rw [h] at hd; cases hd
    · rw [h] at hfl; cases hfl

/-- If every LLM response carries a candidate and no turn ever contains a
terminal declaration, the loop keeps stepping until the budget is hit exactly. -/
theorem runLoopAux_exact (or' : Oracle) (m : Nat)
    (hresp : ∀ n, or'.resp n ≠ LLMEvent.empty)
    (hterm : ∀ n t, or'.resp n = LLMEvent.turn t → ∀ c ∈ t.calls, isTerminalCall c = false) :
    ∀ (fuel : Nat) (s : AgentState), m ≤ s.step + fuel → s.step ≤ m →
      s.done = false → s.failed = false → s.stopped = false →
      (runLoopAux or' m fuel s).step = m ∧
      (runLoopAux or' m fuel s).done = false ∧
      (runLoopAux or' m fuel s).failed = false := by
  intro fuel
  induction fuel with
  | zero =>
    intro s h1 h2 hd hf hs
    simp only [runLoopAux]
    exact ⟨by omega, hd, hf⟩
  | succ f ih =>
    intro s h1 h2 hd hf hs
    by_cases hlt : s.step < m
    · rw [runLoopAux, if_pos ⟨hlt, hd, hf, hs⟩]
      obtain ⟨d2, f2, s2⟩ := runStep_running or' s (hresp _)
        (fun t ht => hterm _ t ht) hd hf hs
      exact ih (runStep or' s) (by rw [runStep_step]; omega)
        (by rw [runStep_step]; omega) d2 f2 s2
    · rw [runLoopAux, if_neg (by rintro ⟨h, -⟩; exact hlt h)]
      exact ⟨by omega, hd, hf⟩

/-- When an exception escapes the dispatch of a non-empty batch, the loop body
leaves all flags untouched and appends the echoed model turn followed by a
synthetic user-text error turn — no tool-response turn. -/
theorem runStepCore_exc_fields (or' : Oracle) (n : Nat) (s : AgentState)
    (t : ModelTurn) (e : String)
    (hr : or'.resp n = LLMEvent.turn t) (hne : t.calls.isEmpty = false)
    (hexc : (runBatch (or'.act n) ⟨s.done, s.failed, s.result⟩ t.calls).exc = some e) :
    (runStepCore or' n s).done = s.done ∧ (runStepCore or' n s).failed = s.failed ∧
    (runStepCore or' n s).stopped = s.stopped ∧
    (runStepCore or' n s).history =
      s.history ++ [Turn.model t, Turn.userText (errorTurnText e)] := by
  have hfl : (runBatch (or'.act n) ⟨s.done, s.failed, s.result⟩ t.calls).flags =
      ⟨s.done, s.failed, s.result⟩ :=
    runBatchGo_exc_flags (or'.act n) t.calls ⟨s.done, s.failed, s.result⟩ 0 [] e hexc
  simp only [runStepCore, hr, hne, Bool.false_eq_true, if_false]
  simp only [hexc]
  refine ⟨?_, ?_, trivial, trivial⟩
  · show (runBatch (or'.act n) ⟨s.done, s.failed, s.result⟩ t.calls).flags.done = s.done
    rw [hfl]
  · show (runBatch (or'.act n) ⟨s.done, s.failed, s.result⟩ t.calls).flags.failed = s.failed
    rw [hfl]

/-- When the cache-bounds guard passes, the element `click` acts on is exactly
the one found by the fresh live-DOM scan — the cache contributes only the
cosmetic label. -/
theorem click_target (cache : List ElementRecord) (eng : ClickEngine) (cur : Nat)
    (index : Int) (h : ¬(index < 0 ∨ (cache.length : Int) ≤ index)) :
    (click cache eng cur index).target = resolveIndex eng.live index := by
  rw [click, if_neg h]
  cases hres : resolveIndex eng.live index with
  | none => rfl
  | some el =>
    cases hfc : eng.firstClick with
    | newTab p => rfl
    | timeout => cases hsc : eng.secondClick <;> rfl
    | raises m => cases hsc : eng.secondClick <;> rfl

/-- When the cache-bounds guard passes, the element `type_text` acts on is
exactly the one found by the fresh live-DOM scan. -/
theorem type_text_target (cache : List ElementRecord) (teng : TypeEngine)
    (index : Int) (text : String) (submit : Bool)
    (h : ¬(index < 0 ∨ (cache.length : Int) ≤ index)) :
    (type_text cache teng index text submit).target = resolveIndex teng.live index := by
  rw [type_text, if_neg h]
  cases hres : resolveIndex teng.live index with
  | none => rfl
  | some el =>
    cases hfill : teng.fill with
    | some m => rfl
    | none =>
      cases submit with
      | false => rfl
      | true => cases hp : teng.press <;> rfl

/-! Section: string lemmas for filename normalization -/

theorem strEndsWith_append_pdf (f : String) :
    strEndsWith (f ++ ".pdf") ".pdf" = true := by
  simp [strEndsWith, String.data_append]

theorem savePdfFilename_pdf (f : String) :
    strEndsWith (savePdfFilename f) ".pdf" = true := by
  rw [savePdfFilename]
  by_cases he : strEndsWith f ".pdf"
  · rw [if_pos he]; exact he
  · rw [if_neg he]; exact strEndsWith_append_pdf f

theorem savePdfFilename_not_abs (f : String) (h : strStartsWith f "/" = false) :
    strStartsWith (savePdfFilename f) "/" = false := by
  rw [savePdfFilename]
  by_cases he : strEndsWith f ".pdf"
  · rw [if_pos he]; exact h
  · rw [if_neg he]
    simp only [strStartsWith, decide_eq_false_iff_not, String.data_append] at h ⊢
    intro hpre
    rcases f with ⟨l⟩
    cases l with
    | nil => simp [List.IsPrefix] at hpre
    | cons c cs =>
      apply h
      obtain ⟨tl, htl⟩ := hpre
      simp at htl
      exact ⟨cs, by rw [← htl.1]; rfl⟩

/-- For a non-absolute filename, the resolved path is the output directory plus
separator plus normalized filename. -/
theorem savePdfPath_in_dir (f : String) (h : strStartsWith f "/" = false) :
    savePdfPath f = OUTPUT_DIR ++ "/" ++ savePdfFilename f := by
  rw [savePdfPath, osPathJoin, savePdfFilename_not_abs f h]
  rw [if_neg (by simp)]
  rw [if_neg (by decide)]

/-! Section: claim theorems -/

/-- C9: `browser_wait` clamps every requested duration to the interval [1, 10]
seconds; the requests 0, 0.5 and 15 resolve to effective durations 1, 1 and 10
respectively, all within [1, 10]. -/
theorem c9_wait_clamps (requested : Option ℚ) :
    1 ≤ clampWaitSeconds requested ∧ clampWaitSeconds requested ≤ 10 ∧
    clampWaitSeconds (some 0) = 1 ∧ clampWaitSeconds (some (1 / 2)) = 1 ∧
    clampWaitSeconds (some 15) = 10 := by
  refine ⟨le_min (le_max_right _ _) (by norm_num), min_le_right _ _, ?_, ?_, ?_⟩
  · norm_num [clampWaitSeconds]
  · norm_num [clampWaitSeconds]
  · norm_num [clampWaitSeconds]

/-- C8 counterexample: for the absolute filename "/report", `save_pdf` resolves
the path to "/report.pdf", outside the fixed output directory, because
`os.path.join` discards the directory when its second argument is absolute —
refuting the claim's "writes into the fixed output directory" for that input. -/
theorem c8_counterexample :
    savePdfPath "/report" = "/report.pdf" ∧
    strStartsWith (savePdfPath "/report") "./browser_output" = false := by
  constructor
  · decide
  · decide

/-- C8 (amended): for every filename that does not start with a path separator,
`save_pdf` appends ".pdf" exactly when the name does not already end in ".pdf",
and resolves the file inside the fixed output directory; in particular "report"
and "report.pdf" both resolve to ./browser_output/report.pdf. -/
theorem c8_save_pdf_normalization (filename : String)
    (habs : strStartsWith filename "/" = false) :
    savePdfPath filename = OUTPUT_DIR ++ "/" ++ savePdfFilename filename ∧
    strEndsWith (savePdfFilename filename) ".pdf" = true ∧
    (strEndsWith filename ".pdf" = true → savePdfFilename filename = filename) ∧
    (strEndsWith filename ".pdf" = false →
      savePdfFilename filename = filename ++ ".pdf") ∧
    savePdfPath "report" = "./browser_output/report.pdf" ∧
    savePdfPath "report.pdf" = "./browser_output/report.pdf" := by
  refine ⟨savePdfPath_in_dir filename habs, savePdfFilename_pdf filename, ?_, ?_, ?_, ?_⟩
  · intro he; rw [savePdfFilename, if_pos he]
  · intro he; rw [savePdfFilename, if_neg (by rw [he]; exact Bool.false_ne_true)]
  · decide
  · decide

theorem c8_save_pdf_normalization_witness :
    savePdfPath "results" = OUTPUT_DIR ++ "/" ++ savePdfFilename "results" ∧
    strEndsWith (savePdfFilename "results") ".pdf" = true := by
  have h := c8_save_pdf_normalization "results" (by decide)
  exact ⟨h.1, h.2.1⟩

/-- C7: for every snapshot, the element records carry contiguous indices
0..n-1 with no gaps or duplicates, assigned in document-query order over the
filtered query result, and every enumerated element has nonzero rendered width
and height and top offset at most two viewport heights. -/
theorem c7_snapshot_indices (viewportHeight : ℚ) (dom : List DOMElement) :
    (snapshotElements viewportHeight dom).map ElementRecord.index =
      List.range (snapshotElements viewportHeight dom).length ∧
    snapshotElements viewportHeight dom =
      ((dom.filter (snapIncluded viewportHeight)).enum).map
        (fun p => recordOf p.1 p.2) ∧
    (∀ el ∈ dom.filter (snapIncluded viewportHeight),
      (rectOf el).width ≠ 0 ∧ (rectOf el).height ≠ 0 ∧
      (rectOf el).top ≤ viewportHeight * 2) := by
  refine ⟨snapshotElements_indices _ _, snapshotElements_eq _ _, ?_⟩
  intro el hel
  have h := (List.mem_filter.mp hel).2
  simp only [snapIncluded, decide_eq_true_eq] at h
  exact ⟨fun hw => h.1 (Or.inl hw), fun hh => h.1 (Or.inr hh), not_lt.mp h.2⟩

def c7dom : List DOMElement :=
  [ ⟨"A", "", "Home", "", "", "", "https://example.com/", some ⟨120, 20, 10⟩⟩
  , ⟨"DIV", "", "", "", "", "", "", some ⟨0, 20, 5⟩⟩
  , ⟨"BUTTON", "submit", "Go", "", "", "", "", some ⟨40, 18, 30⟩⟩ ]

theorem c7_snapshot_indices_witness :
    (snapshotElements 600 c7dom).map ElementRecord.index =
      List.range (snapshotElements 600 c7dom).length ∧
    ((rectOf (⟨"A", "", "Home", "", "", "", "https://example.com/",
        some ⟨120, 20, 10⟩⟩ : DOMElement)).width ≠ 0) := by
  have h := c7_snapshot_indices 600 c7dom
  refine ⟨h.1, (h.2.2 _ (List.mem_filter.mpr ⟨by simp [c7dom], ?_⟩)).1⟩
  simp only [snapIncluded, rectOf, Option.getD_some, decide_eq_true_eq]
  norm_num

/-- C10: an index outside the bounds of the cached snapshot list makes
`browser_click` and `browser_type` return "Error: Invalid element index i"
immediately — the result is a constant independent of the live DOM, no click is
performed, no target is resolved, the active page does not change and no settle
wait runs; with an empty cache, every index whatsoever is rejected this way. -/
theorem c10_invalid_index_guard :
    (∀ (cache : List ElementRecord) (eng : ClickEngine) (teng : TypeEngine)
       (cur : Nat) (index : Int) (text : String) (submit : Bool),
      index < 0 ∨ (cache.length : Int) ≤ index →
      click cache eng cur index =
        ⟨"Error: Invalid element index " ++ toString index, none, 0, cur, none⟩ ∧
      type_text cache teng index text submit =
        ⟨"Error: Invalid element index " ++ toString index, none, none⟩) ∧
    (∀ (eng : ClickEngine) (teng : TypeEngine) (cur : Nat) (index : Int)
       (text : String) (submit : Bool),
      click [] eng cur index =
        ⟨"Error: Invalid element index " ++ toString index, none, 0, cur, none⟩ ∧
      type_text [] teng index text submit =
        ⟨"Error: Invalid element index " ++ toString index, none, none⟩) := by
  have main : ∀ (cache : List ElementRecord) (eng : ClickEngine) (teng : TypeEngine)
      (cur : Nat) (index : Int) (text : String) (submit : Bool),
      index < 0 ∨ (cache.length : Int) ≤ index →
      click cache eng cur index =
        ⟨"Error: Invalid element index " ++ toString index, none, 0, cur, none⟩ ∧
      type_text cache teng index text submit =
        ⟨"Error: Invalid element index " ++ toString index, none, none⟩ := by
    intro cache eng teng cur index text submit h
    exact ⟨by rw [click, if_pos h], by rw [type_text, if_pos h]⟩
  refine ⟨main, ?_⟩
  intro eng teng cur index text submit
  exact main [] eng teng cur index text submit (by simp; omega)

def c10cache : List ElementRecord :=
  [ ⟨0, "a", none, "Result one", some "https://a/"⟩
  , ⟨1, "a", none, "Result two", some "https://b/"⟩
  , ⟨2, "a", none, "Result three", some "https://c/"⟩ ]

def c10eng : ClickEngine := ⟨[], FirstClick.timeout, none⟩

def c10teng : TypeEngine := ⟨[], none, none⟩

theorem c10_invalid_index_guard_witness :
    click c10cache c10eng 0 99 =
      ⟨"Error: Invalid element index " ++ toString (99 : Int), none, 0, 0, none⟩ ∧
    type_text c10cache c10teng 99 "hello" false =
      ⟨"Error: Invalid element index " ++ toString (99 : Int), none, none⟩ :=
  c10_invalid_index_guard.1 c10cache c10eng c10teng 0 99 "hello" false (by decide)

/-- C4: for every click or typeText action with in-bounds index k, the element
acted on is the k-th currently-visible element (in document order) of a fresh
re-query of the live DOM against the interactive selector — a value independent
of the cached snapshot records — and after the first visible element is removed
from the DOM, a request for index 0 resolves to the element that a request for
index 1 resolved to before the removal. -/
theorem c4_live_requery_resolution :
    (∀ (live : List DOMElement) (index : Int), 0 ≤ index →
      resolveIndex live index = (live.filter visibleBox)[index.toNat]?) ∧
    (∀ (cache : List ElementRecord) (eng : ClickEngine) (cur : Nat) (index : Int),
      0 ≤ index → index < (cache.length : Int) →
      (click cache eng cur index).target =
        (eng.live.filter visibleBox)[index.toNat]?) ∧
    (∀ (cache : List ElementRecord) (teng : TypeEngine) (index : Int)
       (text : String) (submit : Bool),
      0 ≤ index → index < (cache.length : Int) →
      (type_text cache teng index text submit).target =
        (teng.live.filter visibleBox)[index.toNat]?) ∧
    (∀ live : List DOMElement, 2 ≤ (live.filter visibleBox).length →
      resolveIndex (live.eraseP visibleBox) 0 = (live.filter visibleBox)[1]?) := by
  have hres : ∀ (live : List DOMElement) (index : Int), 0 ≤ index →
      resolveIndex live index = (live.filter visibleBox)[index.toNat]? := by
    intro live index h0
    rw [resolveIndex_eq, if_pos h0]
  refine ⟨hres, ?_, ?_, ?_⟩
  · intro cache eng cur index h0 hlt
    rw [click_target cache eng cur index (by omega), hres eng.live index h0]
  · intro cache teng index text submit h0 hlt
    rw [type_text_target cache teng index text submit (by omega), hres teng.live index h0]
  · intro live _
    rw [resolveIndex_eq, if_pos le_rfl, filter_eraseP,
      show ((0 : Int).toNat) = 0 from rfl, getElem?_tail]

def c4elA : DOMElement := ⟨"A", "", "First", "", "", "", "https://a/", some ⟨100, 20, 0⟩⟩

def c4elB : DOMElement := ⟨"A", "", "Second", "", "", "", "https://b/", some ⟨100, 20, 30⟩⟩

def c4elHidden : DOMElement := ⟨"INPUT", "hidden", "", "", "", "", "", none⟩

def c4live : List DOMElement := [c4elHidden, c4elA, c4elB]

def c4cache : List ElementRecord :=
  [⟨0, "a", none, "First", some "https://a/"⟩, ⟨1, "a", none, "Second", some "https://b/"⟩]

def c4eng : ClickEngine := ⟨c4live, FirstClick.newTab 1, none⟩

theorem c4_live_requery_resolution_witness :
    (click c4cache c4eng 0 1).target = (c4eng.live.filter visibleBox)[(1 : Int).toNat]? ∧
    resolveIndex (c4live.eraseP visibleBox) 0 = (c4live.filter visibleBox)[1]? := by
  have h := c4_live_requery_resolution
  exact ⟨h.2.1 c4cache c4eng 0 1 (by omega) (by decide),
    h.2.2.2 c4live (by decide)⟩

def c3el : DOMElement := ⟨"A", "", "Link text", "", "", "", "https://x/", some ⟨100, 20, 0⟩⟩

def c3cache : List ElementRecord := [⟨0, "a", none, "Link text", some "https://x/"⟩]

def c3eng : ClickEngine := ⟨[c3el], FirstClick.timeout, none⟩

/-- C3 counterexample: clicking a resolved element when no new page appears
within the bounded wait window performs the click twice — once inside
`expect_page` and once again in the bare `except:` branch entered on the
timeout — refuting the claim's "exactly one click is performed on that
element". -/
theorem c3_counterexample :
    (click c3cache c3eng 7 0).target = some c3el ∧
    (click c3cache c3eng 7 0).clicks = 2 := by
  exact ⟨rfl, rfl⟩

/-- C3 (amended): for a click on a resolved element whose engine clicks succeed:
if a new page is detected within the bounded wait window, exactly one click is
performed, the session's active page switches to the new page and the
load-settle wait is applied there; otherwise the element is clicked a second
time after the window times out — two clicks in total — and the load-settle
wait is applied to the current page. -/
theorem c3_click_page_switch (cache : List ElementRecord) (eng : ClickEngine)
    (cur : Nat) (index : Int) (el : DOMElement)
    (hguard : ¬(index < 0 ∨ (cache.length : Int) ≤ index))
    (hres : resolveIndex eng.live index = some el)
    (hsecond : eng.secondClick = none) :
    (∀ p, eng.firstClick = FirstClick.newTab p →
      (click cache eng cur index).clicks = 1 ∧
      (click cache eng cur index).activePage = p ∧
      (click cache eng cur index).settled = some p ∧
      (click cache eng cur index).target = some el) ∧
    (eng.firstClick = FirstClick.timeout →
      (click cache eng cur index).clicks = 2 ∧
      (click cache eng cur index).activePage = cur ∧
      (click cache eng cur index).settled = some cur ∧
      (click cache eng cur index).target = some el) := by
  constructor
  · intro p hfc
    rw [click, if_neg hguard]
    simp only [hres, hfc]
    refine ⟨?_, ?_, ?_, ?_⟩ <;> trivial
  · intro hfc
    rw [click, if_neg hguard]
    simp only [hres, hfc, hsecond]
    refine ⟨?_, ?_, ?_, ?_⟩ <;> trivial

def c3newEng : ClickEngine := ⟨[c3el], FirstClick.newTab 9, none⟩

theorem c3_click_page_switch_witness :
    (click c3cache c3newEng 7 0).clicks = 1 ∧
    (click c3cache c3newEng 7 0).activePage = 9 ∧
    (click c3cache c3newEng 7 0).settled = some 9 ∧
    (click c3cache c3newEng 7 0).target = some c3el :=
  (c3_click_page_switch c3cache c3newEng 7 0 c3el (by decide) rfl rfl).1 9 rfl

/-- C2 (amended): engine failures inside `click` and `typeText` are caught at
the Action Executor boundary and converted to descriptive error strings returned
as the tool result; but failures inside `navigate` (likewise `snapshot`,
`savePdf`, `goBack`, which have no handler) propagate out of the executor and
are caught only at the loop boundary, which appends a synthetic user-text error
turn — not a tool-response entry — leaves the flags untouched and continues; in
neither case does the loop terminate on an engine failure. -/
theorem c2_engine_error_handling :
    (∀ (goto : String → Except String Unit) (url msg : String),
      goto url = Except.error msg → navigate goto url = Except.error msg) ∧
    (∀ (goto : String → Except String Unit) (url : String),
      goto url = Except.ok () →
      navigate goto url = Except.ok ("Navigated to " ++ url)) ∧
    (∀ (cache : List ElementRecord) (eng : ClickEngine) (cur : Nat) (index : Int)
       (el : DOMElement) (m : String),
      ¬(index < 0 ∨ (cache.length : Int) ≤ index) →
      resolveIndex eng.live index = some el →
      eng.secondClick = some m →
      (eng.firstClick = FirstClick.timeout ∨
        (∃ m2, eng.firstClick = FirstClick.raises m2)) →
      (click cache eng cur index).result = "Error clicking: " ++ m) ∧
    (∀ (cache : List ElementRecord) (teng : TypeEngine) (index : Int)
       (text : String) (submit : Bool) (el : DOMElement) (m : String),
      ¬(index < 0 ∨ (cache.length : Int) ≤ index) →
      resolveIndex teng.live index = some el →
      teng.fill = some m →
      (type_text cache teng index text submit).result = "Error typing: " ++ m) ∧
    (∀ (or' : Oracle) (s : AgentState) (t : ModelTurn) (e : String),
      or'.resp (s.step + 1) = LLMEvent.turn t →
      t.calls.isEmpty = false →
      (runBatch (or'.act (s.step + 1)) ⟨s.done, s.failed, s.result⟩ t.calls).exc =
        some e →
      (runStep or' s).done = s.done ∧ (runStep or' s).failed = s.failed ∧
      (runStep or' s).stopped = s.stopped ∧
      (runStep or' s).history =
        s.history ++ [Turn.model t, Turn.userText (errorTurnText e)]) := by
  refine ⟨?_, ?_, ?_, ?_, ?_⟩
  · intro goto url msg h
    rw [navigate, h]
    rfl
  · intro goto url h
    rw [navigate, h]
    rfl
  · intro cache eng cur index el m hguard hres hsc hfc
    rw [click, if_neg hguard]
    simp only [hres]
    rcases hfc with hfc | ⟨m2, hfc⟩ <;> simp only [hfc, hsc]
  · intro cache teng index text submit el m hguard hres hfill
    rw [type_text, if_neg hguard]
    simp only [hres, hfill]
  · intro or' s t e hr hne hexc
    exact runStepCore_exc_fields or' (s.step + 1) s t e hr hne hexc

def c2goto : String → Except String Unit :=
  fun _ => Except.error "Page.goto: Timeout 30000ms exceeded"

def c2call : ToolCall := ⟨"browser_navigate", [("url", "https://example.com")]⟩

def c2turn : ModelTurn := ⟨"", [c2call]⟩

def c2oracle : Oracle :=
  ⟨fun _ => LLMEvent.turn c2turn, fun _ _ _ => navigate c2goto "https://example.com"⟩

/-- C2 counterexample: a `goto` timeout is not caught at the Action Executor
boundary — `navigate` re-raises it — and the loop, dispatching a one-call batch
of `browser_navigate`, appends a user-text error turn with zero tool-response
entries, so the failure is never "returned as that call's tool result". -/
theorem c2_counterexample :
    navigate c2goto "https://example.com" =
      Except.error "Page.goto: Timeout 30000ms exceeded" ∧
    (runStep c2oracle (initState "t")).history =
      (initState "t").history ++
        [Turn.model c2turn,
         Turn.userText (errorTurnText "Page.goto: Timeout 30000ms exceeded")] ∧
    toolResponseCount (runStep c2oracle (initState "t")).history = 0 := by
  exact ⟨rfl, rfl, rfl⟩

def c2wgoto : String → Except String Unit :=
  fun _ => Except.error "Timeout 30000ms exceeded"

def c2el : DOMElement := ⟨"A", "", "Link", "", "", "", "https://x/", some ⟨50, 10, 0⟩⟩

def c2cache : List ElementRecord := [⟨0, "a", none, "Link", some "https://x/"⟩]

def c2clickEng : ClickEngine :=
  ⟨[c2el], FirstClick.timeout, some "Element is not attached to the DOM"⟩

def c2typeEng : TypeEngine := ⟨[c2el], some "Element is not an input", none⟩

theorem c2_engine_error_handling_witness :
    navigate c2wgoto "https://example.com" =
      Except.error "Timeout 30000ms exceeded" ∧
    (click c2cache c2clickEng 0 0).result =
      "Error clicking: " ++ "Element is not attached to the DOM" ∧
    (type_text c2cache c2typeEng 0 "query" true).result =
      "Error typing: " ++ "Element is not an input" := by
  have h := c2_engine_error_handling
  exact ⟨h.1 c2wgoto "https://example.com" _ rfl,
    h.2.2.1 c2cache c2clickEng 0 0 c2el _ (by decide) rfl rfl (Or.inl rfl),
    h.2.2.2.1 c2cache c2typeEng 0 "query" true c2el _ (by decide) rfl rfl⟩

/-- C1 (amended): for every model turn whose batch of N tool calls is dispatched
with no call raising an escaping exception and with any terminal declaration
only in last position, exactly N tool-response entries are appended — one per
tool call, names in the same order — as a single user-role turn placed
immediately after the echoed model turn, hence before the next LLM request is
issued.  (An escaping engine exception instead aborts the batch and replaces its
collected responses with a user-text error turn; see the counterexample.) -/
theorem c1_pairing (or' : Oracle) (s : AgentState) (t : ModelTurn)
    (hd : s.done = false) (hf : s.failed = false)
    (hr : or'.resp (s.step + 1) = LLMEvent.turn t)
    (hne : t.calls.isEmpty = false)
    (hok : ∀ i c, ∃ v, or'.act (s.step + 1) i c = Except.ok v)
    (hterm : ∀ c ∈ t.calls.dropLast, isTerminalCall c = false) :
    ∃ rs : List (String × String),
      (runStep or' s).history = s.history ++ [Turn.model t, Turn.toolResponses rs] ∧
      rs.map Prod.fst = t.calls.map ToolCall.name ∧
      rs.length = t.calls.length := by
  obtain ⟨hexc, hmap⟩ := runBatchGo_complete (or'.act (s.step + 1)) hok t.calls
    ⟨s.done, s.failed, s.result⟩ 0 [] hd hf hterm
  have hexc' : (runBatch (or'.act (s.step + 1)) ⟨s.done, s.failed, s.result⟩
      t.calls).exc = none := hexc
  have hmap' : (runBatch (or'.act (s.step + 1)) ⟨s.done, s.failed, s.result⟩
      t.calls).responses.map Prod.fst = t.calls.map ToolCall.name := by
    simpa using hmap
  have hlen : (runBatch (or'.act (s.step + 1)) ⟨s.done, s.failed, s.result⟩
      t.calls).responses.length = t.calls.length := by
    have hl := congrArg List.length hmap'
    simpa using hl
  have hcne : t.calls ≠ [] := by
    intro h0
    rw [h0] at hne
    simp at hne
  have hrne : (runBatch (or'.act (s.step + 1)) ⟨s.done, s.failed, s.result⟩
      t.calls).responses.isEmpty = false := by
    cases hres : (runBatch (or'.act (s.step + 1)) ⟨s.done, s.failed, s.result⟩
        t.calls).responses with
    | nil =>
      rw [hres] at hlen
      exact absurd (List.length_eq_zero.mp hlen.symm) hcne
    | cons a l => rfl
  refine ⟨(runBatch (or'.act (s.step + 1)) ⟨s.done, s.failed, s.result⟩
    t.calls).responses, ?_, hmap', hlen⟩
  show (runStepCore or' (s.step + 1) s).history = _
  simp only [runStepCore, hr, hne, Bool.false_eq_true, if_false]
  simp only [hexc', hrne, Bool.false_eq_true, if_false]
  simp

def c1wcall : ToolCall := ⟨"browser_wait", [("seconds", "5")]⟩

def c1wturn : ModelTurn := ⟨"", [c1wcall, c1wcall]⟩

def c1woracle : Oracle :=
  ⟨fun _ => LLMEvent.turn c1wturn, fun _ _ _ => Except.ok "Waited 5s"⟩

theorem c1_pairing_witness :
    ∃ rs : List (String × String),
      (runStep c1woracle (initState "t2")).history =
        (initState "t2").history ++ [Turn.model c1wturn, Turn.toolResponses rs] ∧
      rs.map Prod.fst = c1wturn.calls.map ToolCall.name ∧
      rs.length = c1wturn.calls.length :=
  c1_pairing c1woracle (initState "t2") c1wturn rfl rfl rfl rfl
    (fun _ _ => ⟨"Waited 5s", rfl⟩) (by decide)

def c1goto : String → Except String Unit :=
  fun _ => Except.error "net::ERR_TIMED_OUT"

def c1call : ToolCall := ⟨"browser_navigate", [("url", "https://example.com")]⟩

def c1turn : ModelTurn := ⟨"", [c1call]⟩

def c1oracle : Oracle :=
  ⟨fun _ => LLMEvent.turn c1turn, fun _ _ _ => navigate c1goto "https://example.com"⟩

/-- C1 counterexample: a model turn with N = 1 tool call whose dispatch raises
appends zero tool-response entries — the collected responses are discarded and a
user-text error turn is appended instead — and the loop still issues the next
LLM request (the step counter reaches 2 under a budget of 2), refuting
"exactly N tool-response entries are appended ... before the next LLM request
is issued". -/
theorem c1_counterexample :
    c1oracle.resp 1 = LLMEvent.turn c1turn ∧
    c1turn.calls.length = 1 ∧
    toolResponseCount (runStep c1oracle (initState "t")).history =
      toolResponseCount (initState "t").history ∧
    (runLoop c1oracle 2 (initState "t")).step = 2 := by
  exact ⟨rfl, rfl, rfl, rfl⟩

/-- C5: once a terminal flag is set by `task_complete` or `task_failed`, no
further tool calls of the same batch are dispatched (dispatch count stops right
after the first terminal call), the loop performs no further iterations — hence
no further LLM requests — once a terminal flag is set, a step never clears a
terminal flag, and a batch started in the running state never sets both
terminal flags. -/
theorem c5_terminal_oneway :
    (∀ (or' : Oracle) (m : Nat) (s : AgentState),
      s.done = true ∨ s.failed = true → runLoop or' m s = s) ∧
    (∀ (or' : Oracle) (s : AgentState), s.done = true → (runStep or' s).done = true) ∧
    (∀ (or' : Oracle) (s : AgentState), s.failed = true →
      (runStep or' s).failed = true) ∧
    (∀ (act : Nat → ToolCall → Except String String) (fl : Flags)
       (calls : List ToolCall), fl.done = false → fl.failed = false →
      ¬((runBatch act fl calls).flags.done = true ∧
        (runBatch act fl calls).flags.failed = true)) ∧
    (∀ (act : Nat → ToolCall → Except String String)
       (pre : List ToolCall) (c : ToolCall) (post : List ToolCall) (fl : Flags),
      (∀ i c2, ∃ v, act i c2 = Except.ok v) →
      fl.done = false → fl.failed = false →
      (∀ c2 ∈ pre, isTerminalCall c2 = false) → isTerminalCall c = true →
      (runBatch act fl (pre ++ c :: post)).dispatched = pre.length + 1 ∧
      (runBatch act fl (pre ++ c :: post)).responses.length = pre.length + 1 ∧
      ((runBatch act fl (pre ++ c :: post)).flags.done = true ∨
       (runBatch act fl (pre ++ c :: post)).flags.failed = true)) := by
  refine ⟨runLoop_terminal_fix, ?_, ?_, ?_, ?_⟩
  · intro or' s h
    exact runStepCore_done_mono or' (s.step + 1) s h
  · intro or' s h
    exact runStepCore_failed_mono or' (s.step + 1) s h
  · intro act fl calls hd hf
    exact runBatchGo_not_both act calls fl 0 [] hd hf
  · intro act pre c post fl hok hd hf hpre hc
    have h := runBatchGo_first_terminal act hok pre c post fl 0 [] hd hf hpre hc
    exact ⟨by simpa using h.1, by simpa using h.2.1, h.2.2.2⟩

def c5term : ToolCall := ⟨"task_complete", [("summary", "done")]⟩

def c5wait : ToolCall := ⟨"browser_wait", []⟩

def c5act : Nat → ToolCall → Except String String := fun _ _ => Except.ok "OK"

def c5done : AgentState :=
  { history := [], step := 3, done := true, failed := false
  , result := "done", stopped := false }

def c5oracle : Oracle := ⟨fun _ => LLMEvent.empty, fun _ _ _ => Except.ok "OK"⟩

theorem c5_terminal_oneway_witness :
    runLoop c5oracle 50 c5done = c5done ∧
    (runBatch c5act ⟨false, false, ""⟩ ([c5wait] ++ c5term :: [c5wait])).dispatched = 2 ∧
    (runBatch c5act ⟨false, false, ""⟩ ([c5wait] ++ c5term :: [c5wait])).responses.length = 2 := by
  have h := c5_terminal_oneway
  refine ⟨h.1 c5oracle 50 c5done (Or.inl rfl), ?_, ?_⟩
  · have h2 := h.2.2.2.2 c5act [c5wait] c5term [c5wait] ⟨false, false, ""⟩
      (fun _ _ => ⟨"OK", rfl⟩) rfl rfl (by decide) (by decide)
    simpa using h2.1
  · have h2 := h.2.2.2.2 c5act [c5wait] c5term [c5wait] ⟨false, false, ""⟩
      (fun _ _ => ⟨"OK", rfl⟩) rfl rfl (by decide) (by decide)
    simpa using h2.2.1

def c6oracle : Oracle := ⟨fun _ => LLMEvent.empty, fun _ _ _ => Except.ok "OK"⟩

/-- C6 counterexample: with step budget 2 and a transport returning an empty
candidate list at step 1 — so the model never issues a terminal declaration —
the loop breaks after exactly 1 step, not 2, while still reporting the
non-failure outcome (MAX STEPS REACHED), refuting "terminates with outcome
Exhausted after exactly MAX_STEPS steps". -/
theorem c6_counterexample :
    (runLoop c6oracle 2 (initState "t")).step = 1 ∧
    outcomeOf (runLoop c6oracle 2 (initState "t")) = Outcome.exhausted := by
  exact ⟨rfl, rfl⟩

/-- C6 (amended): the loop executes at most `maxSteps` steps for every oracle;
if additionally every LLM response carries a candidate and the model never
issues a terminal declaration, the loop terminates after exactly `maxSteps`
steps with outcome Exhausted, which is distinct from both Completed and
Failed. -/
theorem c6_step_budget (or' : Oracle) (maxSteps : Nat) (task : String)
    (hresp : ∀ n, or'.resp n ≠ LLMEvent.empty)
    (hterm : ∀ n t, or'.resp n = LLMEvent.turn t →
      ∀ c ∈ t.calls, isTerminalCall c = false) :
    (runLoop or' maxSteps (initState task)).step = maxSteps ∧
    outcomeOf (runLoop or' maxSteps (initState task)) = Outcome.exhausted ∧
    Outcome.exhausted ≠ Outcome.completed ∧ Outcome.exhausted ≠ Outcome.failed ∧
    (∀ or2 : Oracle, (runLoop or2 maxSteps (initState task)).step ≤ maxSteps) := by
  have h := runLoopAux_exact or' maxSteps hresp hterm maxSteps (initState task)
    (by simp [initState]) (by simp [initState]) rfl rfl rfl
  have heq : runLoop or' maxSteps (initState task) =
      runLoopAux or' maxSteps maxSteps (initState task) := rfl
  refine ⟨?_, ?_, by decide, by decide, ?_⟩
  · rw [heq]; exact h.1
  · rw [heq, outcomeOf, if_neg (by rw [h.2.1]; exact Bool.false_ne_true),
      if_neg (by rw [h.2.2]; exact Bool.false_ne_true)]
  · intro or2
    exact runLoop_le or2 maxSteps (initState task) (Nat.zero_le _)

def c6wcall : ToolCall := ⟨"browser_snapshot", []⟩

def c6wturn : ModelTurn := ⟨"", [c6wcall]⟩

def c6woracle : Oracle :=
  ⟨fun _ => LLMEvent.turn c6wturn, fun _ _ _ => Except.ok "URL: about:blank"⟩

theorem c6_step_budget_witness :
    (runLoop c6woracle 2 (initState "t")).step = 2 ∧
    outcomeOf (runLoop c6woracle 2 (initState "t")) = Outcome.exhausted := by
  have h := c6_step_budget c6woracle 2 "t" (fun n h => by cases h)
    (fun n t ht => by cases ht; decide)
  exact ⟨h.1, h.2.1⟩

end OpenClaw
